import Mathlib

/-!
Shallow embedding of the peer chat / file-transfer core of `src/app/page.tsx`
(the `chatReducer` state machine, the `handleDataReceived` payload handler of
`useChatManager`, and the `sendFile` chunking loop).

Records (`Record<string, T>`) are modelled as functions `String → Option T`.
JavaScript numbers carrying byte counts are modelled as `Nat`; the computed
progress percentages are modelled as `ℚ` (all progress arithmetic in the source
is `receivedBytes / size * 100` on exact integer inputs; `ℚ` preserves the
ordering facts stated below, with the Lean convention `x / 0 = 0` standing in
for the JavaScript `Infinity`/`NaN` at declared size 0).

`ArrayBuffer` chunks are modelled as `List Nat` (their byte contents);
`chunk.byteLength` is the list length and `new Blob(chunks).size` is the length
of the concatenation.
-/

namespace Omegam

/-- a `Record<string, α>` object. -/
abbrev StrMap (α : Type) := String → Option α

/-- write of one key of a record (`{ ...m, [k]: v }`, or a direct mutation). -/
def StrMap.set {α : Type} (m : StrMap α) (k : String) (v : α) : StrMap α :=
  fun q => if q = k then some v else m q

/-- removal of one key of a record (`delete m[k]`). -/
def StrMap.del {α : Type} (m : StrMap α) (k : String) : StrMap α :=
  fun q => if q = k then none else m q

/-- `PeerData.status` of `page.tsx`. -/
inductive PeerStatus where
  | online
  | offline
  | connecting
  deriving DecidableEq, Repr

/-- `FileTransfer.status` of `page.tsx` (the full union of the TS type). -/
inductive TransferStatus where
  | transferring
  | completed
  | failed
  | receiving
  | paused
  | cancelled
  | queued
  deriving DecidableEq, Repr

/-- terminal statuses in the sense of the spec: completed, failed, cancelled. -/
def TransferStatus.isTerminal : TransferStatus → Bool
  | .completed => true
  | .failed => true
  | .cancelled => true
  | _ => false

/-- `FileTransfer.direction`. -/
inductive Direction where
  | incoming
  | outgoing
  deriving DecidableEq, Repr

/-- the `FileInfo` interface: `{id, name, size, type}`. -/
structure FileInfo where
  id : String
  name : String
  size : Nat
  type : String
  deriving DecidableEq, Repr

/-- the `FileTransfer` interface (optional speed/timeRemaining omitted: no code
path of the core reads or writes them). -/
structure FileTransfer where
  id : String
  name : String
  size : Nat
  type : String
  status : TransferStatus
  progress : ℚ
  direction : Direction
  deriving DecidableEq, Repr

/-- the `PeerData` interface: `{id, name, status, unreadCount, lastSeen?}`. -/
structure PeerData where
  id : String
  name : String
  status : PeerStatus
  unreadCount : Nat
  lastSeen : Option Nat
  deriving DecidableEq, Repr

/-- `Message.type`. -/
inductive MessageType where
  | text
  | fileTransfer
  deriving DecidableEq, Repr

/-- `Message.status`. -/
inductive MessageStatus where
  | pending
  | sent
  | delivered
  | failed
  deriving DecidableEq, Repr

/-- the `Message` interface. -/
structure Message where
  id : Option Nat
  tempId : Option String
  conversationId : String
  senderId : String
  senderName : String
  content : String
  timestamp : Nat
  type : MessageType
  status : MessageStatus
  fileInfo : Option FileInfo
  deriving DecidableEq, Repr

/-- the `ChatState` record of the reducer (second document of `page.tsx`,
which extends the first with `typingStates`). -/
structure ChatState where
  peers : StrMap PeerData
  messages : StrMap (List Message)
  fileTransfers : StrMap FileTransfer
  selectedConversationId : Option String
  typingStates : StrMap Bool

/-- the `ChatAction` union.  `UPDATE_PEER_STATUS` carries the `Date.now()`
value it reads as an explicit `now` argument. -/
inductive ChatAction where
  | initState (peers : List PeerData) (messages : List Message)
  | selectConversation (payload : Option String)
  | addPeer (payload : PeerData)
  | deletePeer (payload : String)
  | updatePeerStatus (peerId : String) (status : PeerStatus) (now : Nat)
  | addMessage (payload : Message)
  | updateMessageStatus (tempId : String) (newId : Nat)
      (status : MessageStatus) (conversationId : String)
  | incrementUnread (payload : String)
  | clearConversationMessages (payload : String)
  | startFileTransfer (payload : FileTransfer)
  | updateFileProgress (id : String) (progress : ℚ)
  | finishFileTransfer (id : String) (status : TransferStatus)
  | updateTypingStatus (peerId : String) (isTyping : Bool)

/-- `payload.peers.reduce((acc, peer) => { acc[peer.id] = peer; ... }, {})`. -/
def peersById (peers : List PeerData) : StrMap PeerData :=
  peers.foldl (fun acc peer => StrMap.set acc peer.id peer) (fun _ => none)

/-- `payload.messages.reduce(...)`: group by `conversationId`, preserving
order inside each conversation. -/
def messagesByConv (messages : List Message) : StrMap (List Message) :=
  messages.foldl
    (fun acc msg =>
      StrMap.set acc msg.conversationId ((acc msg.conversationId).getD [] ++ [msg]))
    (fun _ => none)

/-- the `chatReducer` of `page.tsx` (second document; the cases shared with the
first document are textually identical there). -/
def chatReducer (state : ChatState) (action : ChatAction) : ChatState :=
  match action with
  | .initState peers messages =>
      { state with
        peers := peersById peers
        messages := messagesByConv messages
        typingStates := fun _ => none }
  | .selectConversation payload =>
      match payload with
      | some p =>
          -- `if (payload && state.peers[payload])`: a JS string is truthy iff
          -- it is nonempty, and the peer lookup must succeed.
          if p = "" then { state with selectedConversationId := some p }
          else
            match state.peers p with
            | some pd =>
                { state with
                  selectedConversationId := some p
                  peers := StrMap.set state.peers p { pd with unreadCount := 0 } }
            | none => { state with selectedConversationId := some p }
      | none => { state with selectedConversationId := none }
  | .addPeer payload =>
      { state with peers := StrMap.set state.peers payload.id payload }
  | .deletePeer payload =>
      { state with
        peers := StrMap.del state.peers payload
        messages := StrMap.del state.messages payload
        fileTransfers := fun fileId =>
          if ((state.messages payload).getD []).any
              (fun msg => match msg.fileInfo with
                          | some fi => fi.id == fileId
                          | none => false) then
            none
          else state.fileTransfers fileId
        selectedConversationId :=
          if state.selectedConversationId = some payload then none
          else state.selectedConversationId }
  | .updatePeerStatus peerId status now =>
      match state.peers peerId with
      | none => state
      | some pd =>
          { state with
            peers := StrMap.set state.peers peerId
              { pd with
                status := status
                lastSeen := if status = .offline then some now else pd.lastSeen } }
  | .addMessage payload =>
      { state with
        messages := StrMap.set state.messages payload.conversationId
          ((state.messages payload.conversationId).getD [] ++ [payload]) }
  | .updateMessageStatus tempId newId status conversationId =>
      match state.messages conversationId with
      | none => state
      | some msgs =>
          { state with
            messages := StrMap.set state.messages conversationId
              (msgs.map (fun m =>
                if m.tempId = some tempId then
                  { m with status := status, id := some newId, tempId := none }
                else m)) }
  | .incrementUnread payload =>
      -- `if (!state.peers[payload] || state.selectedConversationId === payload)`
      match state.peers payload with
      | none => state
      | some pd =>
          if state.selectedConversationId = some payload then state
          else
            { state with
              peers := StrMap.set state.peers payload
                { pd with unreadCount := pd.unreadCount + 1 } }
  | .clearConversationMessages payload =>
      { state with
        messages := StrMap.del state.messages payload
        fileTransfers := fun fileId =>
          if ((state.messages payload).getD []).any
              (fun msg => match msg.fileInfo with
                          | some fi => fi.id == fileId
                          | none => false) then
            none
          else state.fileTransfers fileId }
  | .startFileTransfer payload =>
      { state with fileTransfers := StrMap.set state.fileTransfers payload.id payload }
  | .updateFileProgress id progress =>
      match state.fileTransfers id with
      | none => state
      | some t =>
          { state with
            fileTransfers := StrMap.set state.fileTransfers id
              { t with progress := progress } }
  | .finishFileTransfer id status =>
      match state.fileTransfers id with
      | none => state
      | some t =>
          { state with
            fileTransfers := StrMap.set state.fileTransfers id
              { t with
                status := status
                progress := if status = .completed then 100 else t.progress } }
  | .updateTypingStatus peerId isTyping =>
      { state with typingStates := StrMap.set state.typingStates peerId isTyping }

/-! ### the receiver side: `handleDataReceived` of `useChatManager` -/

/-- the `PeerMessagePayload` union (the `typing` variant of the second
document is included; chunk payloads carry their bytes). -/
inductive PeerMessagePayload where
  | profileInfo (id : String) (name : String)
  | text (content : String)
  | fileMeta (payload : FileInfo)
  | fileChunk (id : String) (chunk : List Nat)
  | fileEnd (id : String)
  | typing (isTyping : Bool)
  deriving DecidableEq, Repr

/-- one entry of `incomingFileBuffers.current`: `{ metadata, chunks }`. -/
structure RecvBuffer where
  metadata : FileInfo
  chunks : List (List Nat)
  deriving DecidableEq, Repr

/-- total byte length of a chunk list, `chunks.reduce((acc, c) => acc + c.byteLength, 0)`. -/
def sumLen (chunks : List (List Nat)) : Nat :=
  (chunks.map List.length).sum

/-- state threaded through `handleDataReceived`: the chunk buffers, the reducer
state (reached via `dispatch`), and the Dexie tables the handler touches
(`db.files`, `db.peers`, and the auto-increment counter of `db.messages`). -/
structure RecvState where
  buffers : StrMap RecvBuffer
  chat : ChatState
  files : StrMap (List Nat)
  dbPeers : StrMap PeerData
  nextMsgId : Nat

/-- `state.peers[peerId]?.name ?? peerId`. -/
def peerNameOf (state : ChatState) (peerId : String) : String :=
  ((state.peers peerId).map PeerData.name).getD peerId

/-- the `handleDataReceived` callback of `useChatManager` (second document;
the cases shared with the first are identical).  `now` is the `Date.now()`
value read while building the message.  The toast/notification/sound calls are
presentation effects outside the modelled state. -/
def handleDataReceived (now : Nat) (peerId : String) (data : PeerMessagePayload)
    (s : RecvState) : RecvState :=
  match data with
  | .profileInfo pid pname =>
      let existingPeer := s.dbPeers pid
      let peerUpdateData : PeerData :=
        { id := pid
          name := pname
          status := .online
          unreadCount := (existingPeer.map PeerData.unreadCount).getD 0
          lastSeen := none }
      { s with
        dbPeers := StrMap.set s.dbPeers pid peerUpdateData
        chat := chatReducer s.chat (.addPeer peerUpdateData) }
  | .text content =>
      let newTextMsg : Message :=
        { id := none
          tempId := none
          conversationId := peerId
          senderId := peerId
          senderName := peerNameOf s.chat peerId
          content := content
          timestamp := now
          type := .text
          status := .delivered
          fileInfo := none }
      { s with
        nextMsgId := s.nextMsgId + 1
        chat := chatReducer (chatReducer s.chat (.addMessage newTextMsg))
          (.incrementUnread peerId) }
  | .fileMeta metadata =>
      let newFileMsg : Message :=
        { id := none
          tempId := none
          conversationId := peerId
          senderId := peerId
          senderName := peerNameOf s.chat peerId
          content := "Receiving file: " ++ metadata.name
          timestamp := now
          type := .fileTransfer
          status := .delivered
          fileInfo := some metadata }
      { s with
        buffers := StrMap.set s.buffers metadata.id ⟨metadata, []⟩
        nextMsgId := s.nextMsgId + 1
        chat :=
          chatReducer
            (chatReducer
              (chatReducer s.chat
                (.startFileTransfer
                  { id := metadata.id
                    name := metadata.name
                    size := metadata.size
                    type := metadata.type
                    status := .receiving
                    progress := 0
                    direction := .incoming }))
              (.addMessage { newFileMsg with id := some s.nextMsgId }))
            (.incrementUnread peerId) }
  | .fileChunk id chunk =>
      match s.buffers id with
      | none => s
      | some transfer =>
          let chunks := transfer.chunks ++ [chunk]
          let receivedSize := sumLen chunks
          let progress : ℚ := (receivedSize : ℚ) / (transfer.metadata.size : ℚ) * 100
          { s with
            buffers := StrMap.set s.buffers id { transfer with chunks := chunks }
            chat := chatReducer s.chat (.updateFileProgress id progress) }
  | .fileEnd id =>
      match s.buffers id with
      | none => s
      | some transfer =>
          let fileBlob := transfer.chunks.flatten
          if fileBlob.length ≠ transfer.metadata.size then
            { s with
              buffers := StrMap.del s.buffers id
              chat := chatReducer s.chat (.finishFileTransfer id .failed) }
          else
            { s with
              buffers := StrMap.del s.buffers id
              files := StrMap.set s.files id fileBlob
              chat := chatReducer s.chat (.finishFileTransfer id .completed) }
  | .typing isTyping =>
      { s with chat := chatReducer s.chat (.updateTypingStatus peerId isTyping) }

/-- fold of `handleDataReceived` over a list of received events
`(now, peerId, payload)`. -/
def processEvents (s : RecvState) : List (Nat × String × PeerMessagePayload) → RecvState
  | [] => s
  | e :: rest => processEvents (handleDataReceived e.1 e.2.1 e.2.2 s) rest

/-- the empty start state: no buffers, empty reducer state, empty tables. -/
def initialRecvState : RecvState :=
  { buffers := fun _ => none
    chat :=
      { peers := fun _ => none
        messages := fun _ => none
        fileTransfers := fun _ => none
        selectedConversationId := none
        typingStates := fun _ => none }
    files := fun _ => none
    dbPeers := fun _ => none
    nextMsgId := 0 }

/-! ### the sender side: `sendFile` -/

/-- the chunking constant of `page.tsx`. -/
def CHUNK_SIZE : Nat := 256 * 1024

/-- the `readNextChunk` / `reader.onload` loop of `sendFile`, on the success
path where every `sendMessageToPeer` returns true: starting at `offset`, slice
`file.slice(offset, offset + CHUNK_SIZE)`, advance `offset += chunk.byteLength`,
repeat while `offset < file.size`.  Returns the list of `(offset, chunkBytes)`
pairs in emission order. -/
def sendChunks (bytes : List Nat) (offset : Nat) : List (Nat × List Nat) :=
  if _h : offset < bytes.length then
    (offset, (bytes.drop offset).take CHUNK_SIZE) ::
      sendChunks bytes (offset + ((bytes.drop offset).take CHUNK_SIZE).length)
  else
    []
termination_by bytes.length - offset
decreasing_by
  simp only [List.length_take, List.length_drop, CHUNK_SIZE]
  omega

/-- the channel payload sequence `sendFile` emits on the all-sends-succeed
path: `file-meta`, then one `file-chunk` per loop iteration, then `file-end`. -/
def sendFileEvents (info : FileInfo) (bytes : List Nat) : List PeerMessagePayload :=
  PeerMessagePayload.fileMeta info ::
    ((sendChunks bytes 0).map fun p => PeerMessagePayload.fileChunk info.id p.2)
    ++ [PeerMessagePayload.fileEnd info.id]

/-- the successive `UPDATE_FILE_PROGRESS` values `sendFile` dispatches:
after each chunk, `progress = (offset + chunk.byteLength) / file.size * 100`. -/
def sendFileProgressValues (bytes : List Nat) : List ℚ :=
  (sendChunks bytes 0).map fun p => ((p.1 + p.2.length : ℚ) / (bytes.length : ℚ)) * 100

/-- the transfer-related dispatch sequence of `sendFile` on the success path:
`START_FILE_TRANSFER` (status `transferring`, progress 0), the progress
updates, then `FINISH_FILE_TRANSFER(completed)`.  (The `ADD_MESSAGE` dispatch
and the Dexie message write sit between the start and the sends but touch no
transfer.) -/
def sendFileTransferDispatches (info : FileInfo) (bytes : List Nat) : List ChatAction :=
  ChatAction.startFileTransfer
      { id := info.id
        name := info.name
        size := info.size
        type := info.type
        status := .transferring
        progress := 0
        direction := .outgoing } ::
    ((sendFileProgressValues bytes).map fun q => ChatAction.updateFileProgress info.id q)
    ++ [ChatAction.finishFileTransfer info.id .completed]

/-! ### basic lemmas about record updates -/

theorem StrMap.set_self {α : Type} (m : StrMap α) (k : String) (v : α) :
    StrMap.set m k v k = some v := by
  simp [StrMap.set]

theorem StrMap.set_ne {α : Type} (m : StrMap α) (k q : String) (v : α) (h : q ≠ k) :
    StrMap.set m k v q = m q := by
  simp [StrMap.set, h]

theorem StrMap.del_self {α : Type} (m : StrMap α) (k : String) :
    StrMap.del m k k = none := by
  simp [StrMap.del]

theorem StrMap.del_ne {α : Type} (m : StrMap α) (k q : String) (h : q ≠ k) :
    StrMap.del m k q = m q := by
  simp [StrMap.del, h]

/-! ### sample states used by the witness instantiations -/

/-- a concrete peer record. -/
def samplePeer : PeerData :=
  { id := "p1", name := "alice", status := .online, unreadCount := 2, lastSeen := none }

/-- a concrete in-flight outgoing transfer. -/
def sampleTransfer : FileTransfer :=
  { id := "t1", name := "a.bin", size := 4, type := "application/octet-stream",
    status := .transferring, progress := 50, direction := .outgoing }

/-- a concrete reducer state holding `samplePeer` and `sampleTransfer`. -/
def sampleChat : ChatState :=
  { peers := fun k => if k = "p1" then some samplePeer else none
    messages := fun _ => none
    fileTransfers := fun k => if k = "t1" then some sampleTransfer else none
    selectedConversationId := none
    typingStates := fun _ => none }

/-! ### C4: FINISH_FILE_TRANSFER(completed) forces progress 100 -/

/-- C4: for every state and existing transfer id, `FINISH_FILE_TRANSFER` with
status `completed` sets that transfer's progress to exactly 100 (whatever it
was before); with any other status it leaves the progress untouched; and the
invariant "every completed transfer has progress 100" is preserved. -/
theorem finishFileTransfer_completed_forces_100
    (s : ChatState) (id : String) (t : FileTransfer) (st : TransferStatus)
    (h : s.fileTransfers id = some t) :
    (chatReducer s (.finishFileTransfer id .completed)).fileTransfers id =
      some { t with status := .completed, progress := 100 }
    ∧ (st ≠ .completed →
        (chatReducer s (.finishFileTransfer id st)).fileTransfers id =
          some { t with status := st })
    ∧ ((∀ j u, s.fileTransfers j = some u → u.status = .completed → u.progress = 100) →
        ∀ j u,
          (chatReducer s (.finishFileTransfer id .completed)).fileTransfers j = some u →
            u.status = .completed → u.progress = 100) := by
  refine ⟨?_, ?_, ?_⟩
  · simp [chatReducer, h, StrMap.set]
  · intro hst
    simp [chatReducer, h, StrMap.set, hst]
  · intro hinv j u hj
    by_cases hji : j = id
    · subst hji
      simp [chatReducer, h, StrMap.set] at hj
      intro _
      simp [← hj]
    · simp only [chatReducer, h] at hj
      rw [StrMap.set_ne _ _ _ _ hji] at hj
      exact hinv j u hj

/-- witness for C4 at a concrete state. -/
theorem finishFileTransfer_completed_forces_100_witness :
    (chatReducer sampleChat (.finishFileTransfer "t1" .completed)).fileTransfers "t1" =
      some { sampleTransfer with status := .completed, progress := 100 } :=
  (finishFileTransfer_completed_forces_100 sampleChat "t1" sampleTransfer .failed
    (by simp [sampleChat])).1

/-! ### C6: unread counting -/

/-- C6: `INCREMENT_UNREAD` for the currently selected conversation leaves the
state unchanged; for a known, non-selected peer it increments that peer's
`unreadCount` by exactly 1; and `SELECT_CONVERSATION` with a known (nonempty)
peer id selects it and zeroes its unread counter. -/
theorem unread_suppression_and_reset
    (s : ChatState) (p : String) (pd : PeerData)
    (hp : s.peers p = some pd) (hne : p ≠ "") :
    (s.selectedConversationId = some p → chatReducer s (.incrementUnread p) = s)
    ∧ (s.selectedConversationId ≠ some p →
        (chatReducer s (.incrementUnread p)).peers p =
          some { pd with unreadCount := pd.unreadCount + 1 })
    ∧ (chatReducer s (.selectConversation (some p))).peers p =
        some { pd with unreadCount := 0 }
    ∧ (chatReducer s (.selectConversation (some p))).selectedConversationId = some p := by
  refine ⟨?_, ?_, ?_, ?_⟩
  · intro hsel
    simp [chatReducer, hp, hsel]
  · intro hsel
    simp [chatReducer, hp, hsel, StrMap.set]
  · simp [chatReducer, hp, hne, StrMap.set]
  · simp [chatReducer, hp, hne]

/-- witness for C6 at a concrete state. -/
theorem unread_suppression_and_reset_witness :
    (chatReducer sampleChat (.incrementUnread "p1")).peers "p1" =
      some { samplePeer with unreadCount := samplePeer.unreadCount + 1 } :=
  ((unread_suppression_and_reset sampleChat "p1" samplePeer
      (by simp [sampleChat]) (by decide)).2.1) (by simp [sampleChat])

/-! ### C2: file-end either persists a length-matching blob or fails -/

/-- C2: on `file-end` for a transfer with an open receive buffer, a byte-length
mismatch against the declared size marks the transfer `failed` and persists
nothing (the files table is untouched), while a match persists the assembled
blob keyed by the transferId and marks the transfer `completed`; a mismatched
buffer never yields `completed`. -/
theorem fileEnd_persists_iff_length_matches
    (s : RecvState) (now : Nat) (peerId id : String) (buf : RecvBuffer)
    (hb : s.buffers id = some buf) (ht : (s.chat.fileTransfers id).isSome) :
    (buf.chunks.flatten.length ≠ buf.metadata.size →
      (handleDataReceived now peerId (.fileEnd id) s).files = s.files
      ∧ ((handleDataReceived now peerId (.fileEnd id) s).chat.fileTransfers id).map
          FileTransfer.status = some .failed)
    ∧ (buf.chunks.flatten.length = buf.metadata.size →
      (handleDataReceived now peerId (.fileEnd id) s).files id = some buf.chunks.flatten
      ∧ ((handleDataReceived now peerId (.fileEnd id) s).chat.fileTransfers id).map
          FileTransfer.status = some .completed)
    ∧ (buf.chunks.flatten.length ≠ buf.metadata.size →
      ((handleDataReceived now peerId (.fileEnd id) s).chat.fileTransfers id).map
          FileTransfer.status ≠ some .completed) := by
  obtain ⟨t, ht⟩ := Option.isSome_iff_exists.mp ht
  refine ⟨?_, ?_, ?_⟩
  · intro hmis
    rw [List.length_flatten] at hmis
    constructor
    · simp [handleDataReceived, hb, hmis]
    · simp [handleDataReceived, hb, hmis, chatReducer, ht, StrMap.set]
  · intro hmatch
    rw [List.length_flatten] at hmatch
    constructor
    · simp [handleDataReceived, hb, hmatch, StrMap.set, List.length_flatten]
    · simp [handleDataReceived, hb, hmatch, chatReducer, ht, StrMap.set]
  · intro hmis
    rw [List.length_flatten] at hmis
    simp [handleDataReceived, hb, hmis, chatReducer, ht, StrMap.set]

/-- a concrete open receive buffer: declared size 4, two chunks of 2 bytes. -/
def sampleBuf : RecvBuffer :=
  { metadata := { id := "t1", name := "a.bin", size := 4,
                  type := "application/octet-stream" }
    chunks := [[1, 2], [3, 4]] }

/-- a concrete receiver state with one open buffer whose two chunks total 4
bytes, matching `sampleTransfer`/`sampleChat`. -/
def sampleRecv : RecvState :=
  { buffers := fun k => if k = "t1" then some sampleBuf else none
    chat := sampleChat
    files := fun _ => none
    dbPeers := fun _ => none
    nextMsgId := 0 }

/-- witness for C2 at a concrete state: the 2+2 byte buffer matches the
declared size 4, so the blob is persisted and the transfer completes. -/
theorem fileEnd_persists_iff_length_matches_witness :
    (handleDataReceived 0 "p1" (.fileEnd "t1") sampleRecv).files "t1" =
      some [1, 2, 3, 4]
    ∧ ((handleDataReceived 0 "p1" (.fileEnd "t1") sampleRecv).chat.fileTransfers "t1").map
        FileTransfer.status = some .completed :=
  (fileEnd_persists_iff_length_matches sampleRecv 0 "p1" "t1" sampleBuf
    (by simp [sampleRecv]) (by simp [sampleRecv, sampleChat])).2.1 (by decide)

/-! ### C10: profile-info overwrites name/status but keeps the stored unread count -/

/-- C10: receiving a `profile-info` handshake for peer `pid` stores (in the
peers table and in the reducer state) a record with the new display name and
status `online`, whose `unreadCount` is the previously stored one, defaulting
to 0 exactly when the peer was unknown: the handshake never resets a stored
unread counter. -/
theorem profileInfo_preserves_unread
    (s : RecvState) (now : Nat) (peerId pid pname : String) :
    (handleDataReceived now peerId (.profileInfo pid pname) s).dbPeers pid =
      some { id := pid, name := pname, status := .online,
             unreadCount := ((s.dbPeers pid).map PeerData.unreadCount).getD 0,
             lastSeen := none }
    ∧ (handleDataReceived now peerId (.profileInfo pid pname) s).chat.peers pid =
      some { id := pid, name := pname, status := .online,
             unreadCount := ((s.dbPeers pid).map PeerData.unreadCount).getD 0,
             lastSeen := none }
    ∧ (∀ old, s.dbPeers pid = some old →
        ((handleDataReceived now peerId (.profileInfo pid pname) s).dbPeers pid).map
          PeerData.unreadCount = some old.unreadCount)
    ∧ (s.dbPeers pid = none →
        ((handleDataReceived now peerId (.profileInfo pid pname) s).dbPeers pid).map
          PeerData.unreadCount = some 0) := by
  refine ⟨?_, ?_, ?_, ?_⟩
  · simp [handleDataReceived, StrMap.set]
  · simp [handleDataReceived, chatReducer, StrMap.set]
  · intro old hold
    simp [handleDataReceived, StrMap.set, hold]
  · intro hnone
    simp [handleDataReceived, StrMap.set, hnone]

/-- witness for C10: a handshake for the known peer `p1` (stored unread count
3) keeps the count 3 while renaming the peer and marking it online. -/
theorem profileInfo_preserves_unread_witness :
    ((handleDataReceived 7 "p1"
        (.profileInfo "p1" "bob")
        { sampleRecv with
          dbPeers := fun k =>
            if k = "p1" then some { samplePeer with unreadCount := 3 } else none }).dbPeers
        "p1").map PeerData.unreadCount = some 3 :=
  (profileInfo_preserves_unread
      { sampleRecv with
        dbPeers := fun k =>
          if k = "p1" then some { samplePeer with unreadCount := 3 } else none }
      7 "p1" "p1" "bob").2.2.1
    { samplePeer with unreadCount := 3 } (by simp)

/-! ### C7: DELETE_PEER cascades -/

/-- C7: deleting peer `p` removes its `PeerData`, removes the whole message
sequence of conversation `p`, removes every file transfer referenced by a
`fileInfo` of one of `p`'s messages, and leaves no message referencing the
deleted conversation (given that the message table is keyed consistently,
which `ADD_MESSAGE` and `INIT_STATE` maintain). -/
theorem deletePeer_cascades
    (s : ChatState) (p : String)
    (hkeys : ∀ k m, m ∈ (s.messages k).getD [] → m.conversationId = k) :
    (chatReducer s (.deletePeer p)).peers p = none
    ∧ (chatReducer s (.deletePeer p)).messages p = none
    ∧ (∀ k m, m ∈ ((chatReducer s (.deletePeer p)).messages k).getD [] →
        m.conversationId ≠ p)
    ∧ (∀ m, m ∈ (s.messages p).getD [] → ∀ fi, m.fileInfo = some fi →
        (chatReducer s (.deletePeer p)).fileTransfers fi.id = none) := by
  refine ⟨?_, ?_, ?_, ?_⟩
  · simp [chatReducer, StrMap.del]
  · simp [chatReducer, StrMap.del]
  · intro k m hm
    by_cases hk : k = p
    · subst hk
      simp [chatReducer, StrMap.del] at hm
    · simp only [chatReducer] at hm
      rw [StrMap.del_ne _ _ _ hk] at hm
      rw [hkeys k m hm]
      exact hk
  · intro m hm fi hfi
    have hany : ((s.messages p).getD []).any
        (fun msg => match msg.fileInfo with
                    | some fi2 => fi2.id == fi.id
                    | none => false) = true := by
      refine List.any_eq_true.mpr ⟨m, hm, ?_⟩
      rw [hfi]
      exact beq_self_eq_true fi.id
    simp only [chatReducer]
    rw [if_pos hany]

/-- a message of conversation `p1` that references transfer `t1`. -/
def sampleMsg : Message :=
  { id := some 1, tempId := none, conversationId := "p1", senderId := "p1",
    senderName := "alice", content := "Sending file: a.bin", timestamp := 0,
    type := .fileTransfer, status := .delivered,
    fileInfo := some { id := "t1", name := "a.bin", size := 4,
                       type := "application/octet-stream" } }

/-- `sampleChat` with `sampleMsg` filed under conversation `p1`. -/
def sampleChatMsgs : ChatState :=
  { sampleChat with messages := fun k => if k = "p1" then some [sampleMsg] else none }

/-- witness for C7: deleting `p1` removes the transfer `t1` referenced by its
message. -/
theorem deletePeer_cascades_witness :
    (chatReducer sampleChatMsgs (.deletePeer "p1")).fileTransfers "t1" = none :=
  (deletePeer_cascades sampleChatMsgs "p1"
      (by
        intro k m hm
        by_cases hk : k = "p1"
        · subst hk
          simp [sampleChatMsgs, sampleChat] at hm
          rw [hm]
          rfl
        · simp [sampleChatMsgs, sampleChat, hk] at hm)).2.2.2
    sampleMsg (by simp [sampleChatMsgs, sampleChat]) _ rfl

/-! ### structure of the sender chunk loop -/

/-- closed form of the chunk loop: starting at `o` with
`ceil((length - o) / CHUNK_SIZE) = k`, the loop emits `k` chunks at offsets
`o, o + CHUNK_SIZE, o + 2·CHUNK_SIZE, …`, each the corresponding slice. -/
theorem sendChunks_closed (bytes : List Nat) :
    ∀ k o, (bytes.length - o + CHUNK_SIZE - 1) / CHUNK_SIZE = k →
      sendChunks bytes o =
        (List.range k).map
          (fun i => (o + i * CHUNK_SIZE, (bytes.drop (o + i * CHUNK_SIZE)).take CHUNK_SIZE)) := by
  intro k
  induction k with
  | zero =>
      intro o hk
      have ho : ¬ o < bytes.length := by
        simp only [CHUNK_SIZE] at hk
        omega
      rw [sendChunks, dif_neg ho]
      simp
  | succ k ih =>
      intro o hk
      have ho : o < bytes.length := by
        simp only [CHUNK_SIZE] at hk
        omega
      have hL : ((bytes.drop o).take CHUNK_SIZE).length = min CHUNK_SIZE (bytes.length - o) := by
        simp [List.length_take, List.length_drop]
      rcases Nat.eq_zero_or_pos k with hk0 | hkpos
      · subst hk0
        have hnext :
            (bytes.length - (o + min CHUNK_SIZE (bytes.length - o)) + CHUNK_SIZE - 1) / CHUNK_SIZE
              = 0 := by
          simp only [CHUNK_SIZE] at hk ⊢
          omega
        rw [sendChunks, dif_pos ho, hL, ih _ hnext,
          show List.range 1 = [0] from rfl]
        simp
      · have hmin : min CHUNK_SIZE (bytes.length - o) = CHUNK_SIZE := by
          simp only [CHUNK_SIZE] at hk ⊢
          omega
        have hnext : (bytes.length - (o + CHUNK_SIZE) + CHUNK_SIZE - 1) / CHUNK_SIZE = k := by
          simp only [CHUNK_SIZE] at hk ⊢
          omega
        rw [sendChunks, dif_pos ho, hL, hmin, ih _ hnext,
          List.range_succ_eq_map, List.map_cons, List.map_map]
        refine List.cons_eq_cons.mpr ⟨by simp, ?_⟩
        apply List.map_congr_left
        intro i hi
        have hoff : o + CHUNK_SIZE + i * CHUNK_SIZE = o + (i + 1) * CHUNK_SIZE := by ring
        simp [Function.comp, hoff]

/-- the chunk loop from offset 0, with `k = ceil(size / CHUNK_SIZE)`. -/
theorem sendChunks_zero (bytes : List Nat) :
    sendChunks bytes 0 =
      (List.range ((bytes.length + CHUNK_SIZE - 1) / CHUNK_SIZE)).map
        (fun i => (i * CHUNK_SIZE, (bytes.drop (i * CHUNK_SIZE)).take CHUNK_SIZE)) := by
  have h := sendChunks_closed bytes ((bytes.length + CHUNK_SIZE - 1) / CHUNK_SIZE) 0 (by simp)
  simpa using h

/-! ### helper lemmas: which reducer events touch `fileTransfers` -/

theorem fileTransfers_addMessage (s : ChatState) (m : Message) :
    (chatReducer s (.addMessage m)).fileTransfers = s.fileTransfers := rfl

theorem fileTransfers_addPeer (s : ChatState) (p : PeerData) :
    (chatReducer s (.addPeer p)).fileTransfers = s.fileTransfers := rfl

theorem fileTransfers_incrementUnread (s : ChatState) (p : String) :
    (chatReducer s (.incrementUnread p)).fileTransfers = s.fileTransfers := by
  simp only [chatReducer]
  cases hc : s.peers p with
  | none => rfl
  | some pd =>
      dsimp only
      split <;> rfl

theorem fileTransfers_updateTypingStatus (s : ChatState) (p : String) (b : Bool) :
    (chatReducer s (.updateTypingStatus p b)).fileTransfers = s.fileTransfers := rfl

/-- processing a `file-meta` payload installs a fresh `receiving` transfer at
the metadata's id and leaves every other transfer untouched. -/
theorem fileMeta_fileTransfers (s : RecvState) (now : Nat) (peerId : String) (md : FileInfo) :
    (handleDataReceived now peerId (.fileMeta md) s).chat.fileTransfers =
      StrMap.set s.chat.fileTransfers md.id
        { id := md.id, name := md.name, size := md.size, type := md.type,
          status := .receiving, progress := 0, direction := .incoming } := by
  show (chatReducer (chatReducer (chatReducer s.chat _) _) _).fileTransfers = _
  rw [fileTransfers_incrementUnread, fileTransfers_addMessage]
  rfl

/-- on `file-end` with an open buffer whose assembled length matches the
declared size, the handler persists the blob, finishes the transfer as
`completed`, and drops the buffer. -/
theorem fileEnd_success (s : RecvState) (now : Nat) (peerId id : String)
    (buf : RecvBuffer) (hb : s.buffers id = some buf)
    (hmatch : buf.chunks.flatten.length = buf.metadata.size) :
    handleDataReceived now peerId (.fileEnd id) s =
      { s with
        buffers := StrMap.del s.buffers id
        files := StrMap.set s.files id buf.chunks.flatten
        chat := chatReducer s.chat (.finishFileTransfer id .completed) } := by
  rw [List.length_flatten] at hmatch
  simp [handleDataReceived, hb, hmatch]

/-- on `file-end` with an open buffer whose assembled length mismatches the
declared size, the handler persists nothing, finishes the transfer as
`failed`, and drops the buffer. -/
theorem fileEnd_mismatch (s : RecvState) (now : Nat) (peerId id : String)
    (buf : RecvBuffer) (hb : s.buffers id = some buf)
    (hmis : buf.chunks.flatten.length ≠ buf.metadata.size) :
    handleDataReceived now peerId (.fileEnd id) s =
      { s with
        buffers := StrMap.del s.buffers id
        chat := chatReducer s.chat (.finishFileTransfer id .failed) } := by
  rw [List.length_flatten] at hmis
  simp [handleDataReceived, hb, hmis]

/-! ### C1: the emitted protocol sequence of `sendFile` -/

/-- C1: for a nonempty file, on the all-sends-succeed path `sendFile` emits
exactly one `file-meta`, then `ceil(size / CHUNK_SIZE)` `file-chunk` payloads
at strictly increasing offsets `0, CHUNK_SIZE, 2·CHUNK_SIZE, …` (every chunk
of `CHUNK_SIZE` bytes except possibly the final one), then exactly one
`file-end`; a 614400-byte (600 KB) file yields chunk sizes
`[262144, 262144, 90112]` (256K, 256K, 88K). -/
theorem sendFile_protocol_sequence (info : FileInfo) (bytes : List Nat)
    (hN : 0 < bytes.length) :
    sendFileEvents info bytes =
      PeerMessagePayload.fileMeta info ::
        ((sendChunks bytes 0).map fun p => PeerMessagePayload.fileChunk info.id p.2)
        ++ [PeerMessagePayload.fileEnd info.id]
    ∧ (sendChunks bytes 0).length = (bytes.length + CHUNK_SIZE - 1) / CHUNK_SIZE
    ∧ 0 < (sendChunks bytes 0).length
    ∧ (sendChunks bytes 0).map Prod.fst =
        (List.range ((bytes.length + CHUNK_SIZE - 1) / CHUNK_SIZE)).map
          (fun i => i * CHUNK_SIZE)
    ∧ (sendChunks bytes 0).map (fun p => p.2.length) =
        (List.range ((bytes.length + CHUNK_SIZE - 1) / CHUNK_SIZE)).map
          (fun i => min CHUNK_SIZE (bytes.length - i * CHUNK_SIZE))
    ∧ (∀ i, i + 1 < (bytes.length + CHUNK_SIZE - 1) / CHUNK_SIZE →
        min CHUNK_SIZE (bytes.length - i * CHUNK_SIZE) = CHUNK_SIZE)
    ∧ (bytes.length = 614400 →
        (sendChunks bytes 0).map (fun p => p.2.length) = [262144, 262144, 90112]) := by
  have hlen : (sendChunks bytes 0).map (fun p => p.2.length) =
      (List.range ((bytes.length + CHUNK_SIZE - 1) / CHUNK_SIZE)).map
        (fun i => min CHUNK_SIZE (bytes.length - i * CHUNK_SIZE)) := by
    rw [sendChunks_zero, List.map_map]
    apply List.map_congr_left
    intro i _
    simp [List.length_take, List.length_drop]
  refine ⟨rfl, ?_, ?_, ?_, hlen, ?_, ?_⟩
  · rw [sendChunks_zero, List.length_map, List.length_range]
  · rw [sendChunks_zero, List.length_map, List.length_range]
    simp only [CHUNK_SIZE]
    omega
  · rw [sendChunks_zero, List.map_map]
    rfl
  · intro i hi
    simp only [CHUNK_SIZE] at hi ⊢
    omega
  · intro h614
    rw [hlen, h614]
    decide

/-- witness for C1 at the one-byte file. -/
theorem sendFile_protocol_sequence_witness :
    0 < ([7] : List Nat).length
    ∧ (sendChunks [7] 0).length = (([7] : List Nat).length + CHUNK_SIZE - 1) / CHUNK_SIZE :=
  ⟨by decide, (sendFile_protocol_sequence ⟨"t1", "a", 1, ""⟩ [7] (by decide)).2.1⟩

/-! ### C9: the empty file -/

/-- C9: for a file of size 0, `sendFile` emits `file-meta` directly followed by
`file-end` (no `file-chunk`) and its dispatch sequence ends marking the
outgoing transfer `completed`; on the receiving side the empty chunk list
assembles to the zero-length blob, which matches the declared size 0, so the
blob is persisted under the transferId and the incoming transfer is marked
`completed`. -/
theorem empty_file_roundtrip (info : FileInfo) (hsz : info.size = 0)
    (peerId : String) (now1 now2 : Nat) (s : RecvState) :
    sendFileEvents info [] =
      [PeerMessagePayload.fileMeta info, PeerMessagePayload.fileEnd info.id]
    ∧ sendFileTransferDispatches info [] =
        [ChatAction.startFileTransfer
          { id := info.id, name := info.name, size := info.size, type := info.type,
            status := .transferring, progress := 0, direction := .outgoing },
         ChatAction.finishFileTransfer info.id .completed]
    ∧ (handleDataReceived now2 peerId (.fileEnd info.id)
          (handleDataReceived now1 peerId (.fileMeta info) s)).files info.id = some []
    ∧ ((handleDataReceived now2 peerId (.fileEnd info.id)
          (handleDataReceived now1 peerId (.fileMeta info) s)).chat.fileTransfers info.id).map
        FileTransfer.status = some .completed := by
  have hchunks : sendChunks ([] : List Nat) 0 = [] := by
    rw [sendChunks]
    simp
  have hbuf : (handleDataReceived now1 peerId (.fileMeta info) s).buffers info.id =
      some ⟨info, []⟩ := by
    simp [handleDataReceived, StrMap.set]
  have htr := fileMeta_fileTransfers s now1 peerId info
  refine ⟨?_, ?_, ?_, ?_⟩
  · simp [sendFileEvents, hchunks]
  · simp [sendFileTransferDispatches, sendFileProgressValues, hchunks]
  · rw [fileEnd_success _ now2 peerId info.id ⟨info, []⟩ hbuf (by simp [hsz])]
    exact StrMap.set_self _ _ _
  · rw [fileEnd_success _ now2 peerId info.id ⟨info, []⟩ hbuf (by simp [hsz])]
    simp only [chatReducer, htr, StrMap.set_self]
    simp [StrMap.set]

/-- witness for C9 at a concrete empty-file metadata from the empty state. -/
theorem empty_file_roundtrip_witness :
    (handleDataReceived 1 "p" (.fileEnd "e1")
        (handleDataReceived 0 "p"
          (.fileMeta { id := "e1", name := "e", size := 0, type := "" })
          initialRecvState)).files "e1" = some [] :=
  (empty_file_roundtrip { id := "e1", name := "e", size := 0, type := "" } rfl
    "p" 0 1 initialRecvState).2.2.1

/-! ### C3: progress is NOT clamped to [0,100] (corrected) -/

/-- counterexample to C3: in the reachable state obtained by receiving a
`file-meta` declaring size 100 and then a single 200-byte `file-chunk`, the
stored progress is `200 / 100 * 100 = 200`, outside `[0, 100]`: the reducer
stores the computed value without clamping. -/
theorem progress_not_clamped_counterexample :
    ((processEvents initialRecvState
        [(0, "p", .fileMeta { id := "t", name := "x", size := 100, type := "" }),
         (1, "p", .fileChunk "t" (List.replicate 200 0))]).chat.fileTransfers "t").map
      FileTransfer.progress = some 200
    ∧ ¬ ((200 : ℚ) ≤ 100) := by
  constructor
  · norm_num [processEvents, handleDataReceived, chatReducer, StrMap.set,
      initialRecvState, sumLen, peerNameOf]
  · norm_num

/-- a percentage computed from a fraction of at most 1 is at most 100. -/
theorem div_mul_hundred_le (m n : Nat) (hmn : m ≤ n) :
    ((m : ℚ)) / ((n : ℚ)) * 100 ≤ 100 := by
  rcases Nat.eq_zero_or_pos n with hz | hp
  · have hm : m = 0 := by omega
    rw [hz, hm]
    norm_num
  · have h1 : (m : ℚ) / (n : ℚ) ≤ 1 := by
      rw [div_le_one (by exact_mod_cast hp)]
      exact_mod_cast hmn
    calc (m : ℚ) / (n : ℚ) * 100 ≤ 1 * 100 :=
          mul_le_mul_of_nonneg_right h1 (by norm_num)
      _ = 100 := one_mul 100

/-- C3 amended: sender-side progress values always lie in `[0, 100]`; the
receiver stores the unclamped value `receivedBytes / declaredSize * 100`,
which lies in `[0, 100]` whenever the accumulated bytes do not exceed the
declared size (and exceeds 100 otherwise, as the counterexample shows). -/
theorem progress_bounds_amended :
    (∀ (bytes : List Nat) (q : ℚ), q ∈ sendFileProgressValues bytes →
      0 ≤ q ∧ q ≤ 100)
    ∧ (∀ (s : RecvState) (now : Nat) (peerId id : String) (buf : RecvBuffer)
        (chunk : List Nat) (t : FileTransfer),
        s.buffers id = some buf →
        s.chat.fileTransfers id = some t →
        ((handleDataReceived now peerId (.fileChunk id chunk) s).chat.fileTransfers id =
          some { t with progress :=
            (sumLen (buf.chunks ++ [chunk]) : ℚ) / (buf.metadata.size : ℚ) * 100 })
        ∧ (sumLen (buf.chunks ++ [chunk]) ≤ buf.metadata.size →
            0 ≤ (sumLen (buf.chunks ++ [chunk]) : ℚ) / (buf.metadata.size : ℚ) * 100
            ∧ (sumLen (buf.chunks ++ [chunk]) : ℚ) / (buf.metadata.size : ℚ) * 100 ≤ 100)) := by
  constructor
  · intro bytes q hq
    rw [sendFileProgressValues, sendChunks_zero, List.map_map] at hq
    obtain ⟨i, hik, hqe⟩ := List.mem_map.mp hq
    have hik' : i < (bytes.length + CHUNK_SIZE - 1) / CHUNK_SIZE := List.mem_range.mp hik
    rw [Function.comp_apply] at hqe
    have hlen : ((bytes.drop (i * CHUNK_SIZE)).take CHUNK_SIZE).length =
        min CHUNK_SIZE (bytes.length - i * CHUNK_SIZE) := by
      simp [List.length_take, List.length_drop]
    have hbound : i * CHUNK_SIZE + min CHUNK_SIZE (bytes.length - i * CHUNK_SIZE)
        ≤ bytes.length := by
      simp only [CHUNK_SIZE] at hik' ⊢
      omega
    subst hqe
    dsimp only [Function.comp]
    rw [hlen]
    constructor
    · positivity
    · have hle := div_mul_hundred_le
        (i * CHUNK_SIZE + min CHUNK_SIZE (bytes.length - i * CHUNK_SIZE))
        bytes.length hbound
      exact_mod_cast hle
  · intro s now peerId id buf chunk t hb ht
    constructor
    · simp [handleDataReceived, hb, chatReducer, ht, StrMap.set, sumLen]
    · intro hle
      constructor
      · positivity
      · exact div_mul_hundred_le _ _ hle

/-- witness for C3 (amended) at a concrete state: appending an empty chunk to
the full 4-byte buffer stores progress `4 / 4 * 100`. -/
theorem progress_bounds_amended_witness :
    (handleDataReceived 0 "p1" (.fileChunk "t1" []) sampleRecv).chat.fileTransfers "t1" =
      some { sampleTransfer with progress :=
        (sumLen (sampleBuf.chunks ++ [[]]) : ℚ) / (sampleBuf.metadata.size : ℚ) * 100 } :=
  (progress_bounds_amended.2 sampleRecv 0 "p1" "t1" sampleBuf [] sampleTransfer
    (by simp [sampleRecv]) (by simp [sampleRecv, sampleChat])).1

/-! ### C8: terminal statuses and duplicate file-meta (corrected) -/

/-- counterexample to C8: after a transfer completes (terminal), a duplicate
`file-meta` carrying the same transferId dispatches a fresh
`START_FILE_TRANSFER`, returning the id to the non-terminal status
`receiving`.  The trace is reachable through `handleDataReceived` alone. -/
theorem terminal_reentered_counterexample :
    ((processEvents initialRecvState
        [(0, "p", .fileMeta { id := "t", name := "x", size := 0, type := "" }),
         (1, "p", .fileEnd "t")]).chat.fileTransfers "t").map
      FileTransfer.status = some .completed
    ∧ ((processEvents initialRecvState
        [(0, "p", .fileMeta { id := "t", name := "x", size := 0, type := "" }),
         (1, "p", .fileEnd "t"),
         (2, "p", .fileMeta { id := "t", name := "x", size := 0, type := "" })]).chat.fileTransfers
        "t").map FileTransfer.status = some .receiving
    ∧ TransferStatus.completed.isTerminal = true
    ∧ TransferStatus.receiving.isTerminal = false := by
  refine ⟨by decide, by decide, rfl, rfl⟩

/-- C8 amended: a transfer whose status is terminal stays terminal under every
reducer event except a `START_FILE_TRANSFER` reusing the same transferId (the
duplicate `file-meta` situation of the counterexample); `FINISH_FILE_TRANSFER`
events are restricted to the terminal statuses `completed`/`failed`, the only
ones the code ever dispatches. -/
theorem terminal_status_preserved
    (s : ChatState) (a : ChatAction) (id : String) (t : FileTransfer)
    (h : s.fileTransfers id = some t) (hterm : t.status.isTerminal = true)
    (hstart : ∀ p, a = ChatAction.startFileTransfer p → p.id ≠ id)
    (hfin : ∀ i st, a = ChatAction.finishFileTransfer i st → st.isTerminal = true) :
    ∀ t', (chatReducer s a).fileTransfers id = some t' →
      t'.status.isTerminal = true := by
  intro t' ht'
  cases a with
  | initState peers msgs =>
      simp only [chatReducer] at ht'
      rw [h] at ht'
      rw [← Option.some_inj.mp ht']
      exact hterm
  | selectConversation payload =>
      rcases payload with _ | p
      · simp only [chatReducer] at ht'
        rw [h] at ht'
        rw [← Option.some_inj.mp ht']
        exact hterm
      · simp only [chatReducer] at ht'
        by_cases hp : p = ""
        · rw [if_pos hp] at ht'
          simp only at ht'
          rw [h] at ht'
          rw [← Option.some_inj.mp ht']
          exact hterm
        · rw [if_neg hp] at ht'
          rcases hc : s.peers p with _ | pd <;> rw [hc] at ht' <;> simp only at ht' <;>
            rw [h] at ht' <;> rw [← Option.some_inj.mp ht'] <;> exact hterm
  | addPeer p =>
      simp only [chatReducer] at ht'
      rw [h] at ht'
      rw [← Option.some_inj.mp ht']
      exact hterm
  | deletePeer p =>
      simp only [chatReducer] at ht'
      split at ht'
      · exact Option.noConfusion ht'
      · rw [h] at ht'
        rw [← Option.some_inj.mp ht']
        exact hterm
  | updatePeerStatus pid st now =>
      simp only [chatReducer] at ht'
      rcases hc : s.peers pid with _ | pd <;> rw [hc] at ht' <;> simp only at ht' <;>
        rw [h] at ht' <;> rw [← Option.some_inj.mp ht'] <;> exact hterm
  | addMessage m =>
      simp only [chatReducer] at ht'
      rw [h] at ht'
      rw [← Option.some_inj.mp ht']
      exact hterm
  | updateMessageStatus tid nid st cid =>
      simp only [chatReducer] at ht'
      rcases hc : s.messages cid with _ | msgs <;> rw [hc] at ht' <;> simp only at ht' <;>
        rw [h] at ht' <;> rw [← Option.some_inj.mp ht'] <;> exact hterm
  | incrementUnread p =>
      simp only [chatReducer] at ht'
      rcases hc : s.peers p with _ | pd
      · rw [hc] at ht'
        simp only at ht'
        rw [h] at ht'
        rw [← Option.some_inj.mp ht']
        exact hterm
      · rw [hc] at ht'
        simp only at ht'
        split at ht' <;> rw [h] at ht' <;> rw [← Option.some_inj.mp ht'] <;> exact hterm
  | clearConversationMessages p =>
      simp only [chatReducer] at ht'
      split at ht'
      · exact Option.noConfusion ht'
      · rw [h] at ht'
        rw [← Option.some_inj.mp ht']
        exact hterm
  | startFileTransfer p =>
      simp only [chatReducer] at ht'
      rw [StrMap.set_ne _ _ _ _ (Ne.symm (hstart p rfl))] at ht'
      rw [h] at ht'
      rw [← Option.some_inj.mp ht']
      exact hterm
  | updateFileProgress i q =>
      simp only [chatReducer] at ht'
      rcases hc : s.fileTransfers i with _ | u
      · rw [hc] at ht'
        simp only at ht'
        rw [h] at ht'
        rw [← Option.some_inj.mp ht']
        exact hterm
      · rw [hc] at ht'
        simp only at ht'
        by_cases hid : id = i
        · subst hid
          rw [StrMap.set_self] at ht'
          rw [← Option.some_inj.mp ht']
          have : u = t := Option.some_inj.mp (hc ▸ h)
          rw [this]
          exact hterm
        · rw [StrMap.set_ne _ _ _ _ hid] at ht'
          rw [h] at ht'
          rw [← Option.some_inj.mp ht']
          exact hterm
  | finishFileTransfer i st =>
      simp only [chatReducer] at ht'
      rcases hc : s.fileTransfers i with _ | u
      · rw [hc] at ht'
        simp only at ht'
        rw [h] at ht'
        rw [← Option.some_inj.mp ht']
        exact hterm
      · rw [hc] at ht'
        simp only at ht'
        by_cases hid : id = i
        · subst hid
          rw [StrMap.set_self] at ht'
          rw [← Option.some_inj.mp ht']
          exact hfin id st rfl
        · rw [StrMap.set_ne _ _ _ _ hid] at ht'
          rw [h] at ht'
          rw [← Option.some_inj.mp ht']
          exact hterm
  | updateTypingStatus p b =>
      simp only [chatReducer] at ht'
      rw [h] at ht'
      rw [← Option.some_inj.mp ht']
      exact hterm

/-- a completed (terminal) transfer. -/
def sampleDone : FileTransfer := { sampleTransfer with status := .completed }

/-- `sampleChat` with the completed transfer `t1`. -/
def sampleDoneChat : ChatState :=
  { sampleChat with fileTransfers := fun k => if k = "t1" then some sampleDone else none }

/-- witness for C8 (amended): a progress update on a completed transfer keeps
it terminal. -/
theorem terminal_status_preserved_witness :
    ({ sampleDone with progress := 7 } : FileTransfer).status.isTerminal = true :=
  terminal_status_preserved sampleDoneChat (.updateFileProgress "t1" 7) "t1" sampleDone
    (by simp [sampleDoneChat]) (by decide)
    (by intro p hp; exact ChatAction.noConfusion hp)
    (by intro j st2 hst; exact ChatAction.noConfusion hst)
    { sampleDone with progress := 7 }
    (by simp [chatReducer, sampleDoneChat, StrMap.set])

/-! ### C5: progress monotonicity along receiver traces and the sender loop -/

theorem fileChunk_no_buffer (s : RecvState) (now : Nat) (pid cid : String)
    (chunk : List Nat) (hb : s.buffers cid = none) :
    handleDataReceived now pid (.fileChunk cid chunk) s = s := by
  simp [handleDataReceived, hb]

theorem fileChunk_with_buffer (s : RecvState) (now : Nat) (pid cid : String)
    (chunk : List Nat) (buf0 : RecvBuffer) (hb : s.buffers cid = some buf0) :
    handleDataReceived now pid (.fileChunk cid chunk) s =
      { s with
        buffers := StrMap.set s.buffers cid { buf0 with chunks := buf0.chunks ++ [chunk] }
        chat := chatReducer s.chat (.updateFileProgress cid
          ((sumLen (buf0.chunks ++ [chunk]) : ℚ) / (buf0.metadata.size : ℚ) * 100)) } := by
  simp [handleDataReceived, hb]

theorem fileEnd_no_buffer (s : RecvState) (now : Nat) (pid eid : String)
    (hb : s.buffers eid = none) :
    handleDataReceived now pid (.fileEnd eid) s = s := by
  simp [handleDataReceived, hb]

theorem profileInfo_fileTransfers (s : RecvState) (now : Nat) (pid a b : String) :
    (handleDataReceived now pid (.profileInfo a b) s).chat.fileTransfers =
      s.chat.fileTransfers := by
  show (chatReducer s.chat _).fileTransfers = _
  exact fileTransfers_addPeer _ _

theorem text_fileTransfers (s : RecvState) (now : Nat) (pid c : String) :
    (handleDataReceived now pid (.text c) s).chat.fileTransfers =
      s.chat.fileTransfers := by
  show (chatReducer (chatReducer s.chat _) _).fileTransfers = _
  rw [fileTransfers_incrementUnread, fileTransfers_addMessage]

theorem typing_fileTransfers (s : RecvState) (now : Nat) (pid : String) (b : Bool) :
    (handleDataReceived now pid (.typing b) s).chat.fileTransfers =
      s.chat.fileTransfers := by
  show (chatReducer s.chat _).fileTransfers = _
  exact fileTransfers_updateTypingStatus _ _ _

theorem updateFileProgress_no_transfer (s : ChatState) (i : String) (q : ℚ)
    (h : s.fileTransfers i = none) :
    chatReducer s (.updateFileProgress i q) = s := by
  simp [chatReducer, h]

theorem updateFileProgress_with_transfer (s : ChatState) (i : String) (q : ℚ)
    (u : FileTransfer) (h : s.fileTransfers i = some u) :
    (chatReducer s (.updateFileProgress i q)).fileTransfers =
      StrMap.set s.fileTransfers i { u with progress := q } := by
  simp [chatReducer, h]

theorem finishFileTransfer_no_transfer (s : ChatState) (i : String) (st : TransferStatus)
    (h : s.fileTransfers i = none) :
    chatReducer s (.finishFileTransfer i st) = s := by
  simp [chatReducer, h]

theorem finishFileTransfer_with_transfer (s : ChatState) (i : String) (st : TransferStatus)
    (u : FileTransfer) (h : s.fileTransfers i = some u) :
    (chatReducer s (.finishFileTransfer i st)).fileTransfers =
      StrMap.set s.fileTransfers i
        { u with status := st,
                 progress := if st = .completed then 100 else u.progress } := by
  simp [chatReducer, h]

/-- coherence invariant of the receiver: every open buffer with a live
(non-terminal) transfer record has its stored progress equal to
`receivedBytes / declaredSize * 100` for the buffered chunks.  It holds in the
empty start state and is preserved by every received payload. -/
def RecvInv (s : RecvState) : Prop :=
  ∀ id buf t, s.buffers id = some buf → s.chat.fileTransfers id = some t →
    t.status.isTerminal = false →
    t.progress = (sumLen buf.chunks : ℚ) / (buf.metadata.size : ℚ) * 100

theorem RecvInv_initial : RecvInv initialRecvState := by
  intro id buf t hb
  simp [initialRecvState] at hb

theorem RecvInv_preserved (s : RecvState) (now : Nat) (pid : String)
    (e : PeerMessagePayload) (hs : RecvInv s) :
    RecvInv (handleDataReceived now pid e s) := by
  cases e with
  | profileInfo a b =>
      intro id buf t hb ht hnt
      rw [profileInfo_fileTransfers] at ht
      exact hs id buf t hb ht hnt
  | text c =>
      intro id buf t hb ht hnt
      rw [text_fileTransfers] at ht
      exact hs id buf t hb ht hnt
  | typing b =>
      intro id buf t hb ht hnt
      rw [typing_fileTransfers] at ht
      exact hs id buf t hb ht hnt
  | fileMeta md =>
      intro id buf t hb ht hnt
      rw [show (handleDataReceived now pid (.fileMeta md) s).buffers =
        StrMap.set s.buffers md.id ⟨md, []⟩ from rfl] at hb
      rw [fileMeta_fileTransfers] at ht
      by_cases hid : id = md.id
      · subst hid
        rw [StrMap.set_self] at hb ht
        rw [← Option.some_inj.mp hb, ← Option.some_inj.mp ht]
        simp [sumLen]
      · rw [StrMap.set_ne _ _ _ _ hid] at hb ht
        exact hs id buf t hb ht hnt
  | fileChunk cid chunk =>
      rcases hb0 : s.buffers cid with _ | buf0
      · rw [fileChunk_no_buffer s now pid cid chunk hb0]
        exact hs
      · rw [fileChunk_with_buffer s now pid cid chunk buf0 hb0]
        intro id buf t hb ht hnt
        dsimp only at hb ht
        rcases ht0 : s.chat.fileTransfers cid with _ | u
        · rw [updateFileProgress_no_transfer s.chat cid _ ht0] at ht
          by_cases hid : id = cid
          · subst hid
            rw [ht0] at ht
            exact absurd ht (by simp)
          · rw [StrMap.set_ne _ _ _ _ hid] at hb
            exact hs id buf t hb ht hnt
        · rw [updateFileProgress_with_transfer s.chat cid _ u ht0] at ht
          by_cases hid : id = cid
          · subst hid
            rw [StrMap.set_self] at hb ht
            rw [← Option.some_inj.mp hb, ← Option.some_inj.mp ht]
          · rw [StrMap.set_ne _ _ _ _ hid] at hb ht
            exact hs id buf t hb ht hnt
  | fileEnd eid =>
      rcases hb0 : s.buffers eid with _ | buf0
      · rw [fileEnd_no_buffer s now pid eid hb0]
        exact hs
      · by_cases hm : buf0.chunks.flatten.length = buf0.metadata.size
        · rw [fileEnd_success s now pid eid buf0 hb0 hm]
          intro id buf t hb ht hnt
          dsimp only at hb ht
          by_cases hid : id = eid
          · subst hid
            rw [StrMap.del_self] at hb
            exact absurd hb (by simp)
          · rw [StrMap.del_ne _ _ _ hid] at hb
            rcases ht0 : s.chat.fileTransfers eid with _ | u
            · rw [finishFileTransfer_no_transfer s.chat eid .completed ht0] at ht
              exact hs id buf t hb ht hnt
            · rw [finishFileTransfer_with_transfer s.chat eid .completed u ht0,
                StrMap.set_ne _ _ _ _ hid] at ht
              exact hs id buf t hb ht hnt
        · rw [fileEnd_mismatch s now pid eid buf0 hb0 hm]
          intro id buf t hb ht hnt
          dsimp only at hb ht
          by_cases hid : id = eid
          · subst hid
            rw [StrMap.del_self] at hb
            exact absurd hb (by simp)
          · rw [StrMap.del_ne _ _ _ hid] at hb
            rcases ht0 : s.chat.fileTransfers eid with _ | u
            · rw [finishFileTransfer_no_transfer s.chat eid .failed ht0] at ht
              exact hs id buf t hb ht hnt
            · rw [finishFileTransfer_with_transfer s.chat eid .failed u ht0,
                StrMap.set_ne _ _ _ _ hid] at ht
              exact hs id buf t hb ht hnt

theorem RecvInv_processEvents :
    ∀ (evs : List (Nat × String × PeerMessagePayload)) (s : RecvState),
      RecvInv s → RecvInv (processEvents s evs)
  | [], _, hs => hs
  | e :: rest, s, hs =>
      RecvInv_processEvents rest _ (RecvInv_preserved s e.1 e.2.1 e.2.2 hs)

/-- percentages of a fixed denominator are monotone in the numerator. -/
theorem div_mul_hundred_mono (a b n : Nat) (hab : a ≤ b) :
    (a : ℚ) / (n : ℚ) * 100 ≤ (b : ℚ) / (n : ℚ) * 100 := by
  rcases Nat.eq_zero_or_pos n with hz | hp
  · subst hz
    norm_num
  · have h1 : (a : ℚ) / (n : ℚ) ≤ (b : ℚ) / (n : ℚ) :=
      (div_le_div_iff_of_pos_right (by exact_mod_cast hp)).mpr (by exact_mod_cast hab)
    exact mul_le_mul_of_nonneg_right h1 (by norm_num)

/-- under the coherence invariant, one received payload that is not a
`file-meta` reusing the transfer's id never decreases the stored progress of a
live (non-terminal) transfer. -/
theorem recv_step_progress_mono (s : RecvState) (now : Nat) (pid : String)
    (e : PeerMessagePayload) (id : String) (t : FileTransfer)
    (hs : RecvInv s) (ht : s.chat.fileTransfers id = some t)
    (hnt : t.status.isTerminal = false)
    (hmeta : ∀ md, e = PeerMessagePayload.fileMeta md → md.id ≠ id) :
    ∃ t', (handleDataReceived now pid e s).chat.fileTransfers id = some t'
      ∧ t.progress ≤ t'.progress := by
  cases e with
  | profileInfo a b =>
      exact ⟨t, by rw [profileInfo_fileTransfers]; exact ht, le_refl _⟩
  | text c =>
      exact ⟨t, by rw [text_fileTransfers]; exact ht, le_refl _⟩
  | typing b =>
      exact ⟨t, by rw [typing_fileTransfers]; exact ht, le_refl _⟩
  | fileMeta md =>
      refine ⟨t, ?_, le_refl _⟩
      rw [fileMeta_fileTransfers, StrMap.set_ne _ _ _ _ (Ne.symm (hmeta md rfl))]
      exact ht
  | fileChunk cid chunk =>
      rcases hb0 : s.buffers cid with _ | buf0
      · rw [fileChunk_no_buffer s now pid cid chunk hb0]
        exact ⟨t, ht, le_refl _⟩
      · rw [fileChunk_with_buffer s now pid cid chunk buf0 hb0]
        by_cases hid : id = cid
        · subst hid
          refine ⟨{ t with progress :=
            (sumLen (buf0.chunks ++ [chunk]) : ℚ) / (buf0.metadata.size : ℚ) * 100 }, ?_, ?_⟩
          · dsimp only
            rw [updateFileProgress_with_transfer s.chat id _ t ht, StrMap.set_self]
          · dsimp only
            rw [hs id buf0 t hb0 ht hnt]
            refine div_mul_hundred_mono _ _ _ ?_
            simp [sumLen]
        · refine ⟨t, ?_, le_refl _⟩
          dsimp only
          rcases ht0 : s.chat.fileTransfers cid with _ | u
          · rw [updateFileProgress_no_transfer s.chat cid _ ht0]
            exact ht
          · rw [updateFileProgress_with_transfer s.chat cid _ u ht0,
              StrMap.set_ne _ _ _ _ hid]
            exact ht
  | fileEnd eid =>
      rcases hb0 : s.buffers eid with _ | buf0
      · rw [fileEnd_no_buffer s now pid eid hb0]
        exact ⟨t, ht, le_refl _⟩
      · by_cases hm : buf0.chunks.flatten.length = buf0.metadata.size
        · rw [fileEnd_success s now pid eid buf0 hb0 hm]
          by_cases hid : id = eid
          · subst hid
            refine ⟨{ t with status := .completed, progress := 100 }, ?_, ?_⟩
            · dsimp only
              rw [finishFileTransfer_with_transfer s.chat id .completed t ht,
                StrMap.set_self]
              simp
            · dsimp only
              rw [hs id buf0 t hb0 ht hnt]
              have hfull : sumLen buf0.chunks = buf0.metadata.size := by
                rw [sumLen, ← List.length_flatten]
                exact hm
              rw [hfull]
              exact div_mul_hundred_le _ _ (le_refl _)
          · refine ⟨t, ?_, le_refl _⟩
            dsimp only
            rcases ht0 : s.chat.fileTransfers eid with _ | u
            · rw [finishFileTransfer_no_transfer s.chat eid .completed ht0]
              exact ht
            · rw [finishFileTransfer_with_transfer s.chat eid .completed u ht0,
                StrMap.set_ne _ _ _ _ hid]
              exact ht
        · rw [fileEnd_mismatch s now pid eid buf0 hb0 hm]
          by_cases hid : id = eid
          · subst hid
            refine ⟨{ t with status := .failed, progress := t.progress }, ?_, le_refl _⟩
            dsimp only
            rw [finishFileTransfer_with_transfer s.chat id .failed t ht, StrMap.set_self]
            simp
          · refine ⟨t, ?_, le_refl _⟩
            dsimp only
            rcases ht0 : s.chat.fileTransfers eid with _ | u
            · rw [finishFileTransfer_no_transfer s.chat eid .failed ht0]
              exact ht
            · rw [finishFileTransfer_with_transfer s.chat eid .failed u ht0,
                StrMap.set_ne _ _ _ _ hid]
              exact ht

/-- the successive progress values dispatched by the `sendFile` loop are
non-decreasing. -/
theorem sendProgress_chain (bytes : List Nat) :
    List.Chain' (· ≤ ·) (sendFileProgressValues bytes) := by
  rw [sendFileProgressValues, sendChunks_zero, List.map_map, List.chain'_map]
  cases hk : (bytes.length + CHUNK_SIZE - 1) / CHUNK_SIZE with
  | zero => simp
  | succ n =>
      rw [List.chain'_range_succ]
      intro m hm
      dsimp only [Function.comp]
      simp only [List.length_take, List.length_drop]
      have harith : m * CHUNK_SIZE + min CHUNK_SIZE (bytes.length - m * CHUNK_SIZE)
          ≤ (m + 1) * CHUNK_SIZE + min CHUNK_SIZE (bytes.length - (m + 1) * CHUNK_SIZE) := by
        simp only [CHUNK_SIZE]
        omega
      have hmono := div_mul_hundred_mono _ _ bytes.length harith
      exact_mod_cast hmono

/-- counterexample to C5 as stated: the reachable receiver trace
`file-meta(t, size 100)` → 50-byte `file-chunk` → `file-meta(t)` again takes
the stored progress of transfer `t` from 50 back to 0 while its status is
still the non-terminal `receiving` at both points: a duplicate `file-meta`
reusing the transferId restarts the transfer (buffer reset plus the
unconditional `START_FILE_TRANSFER` overwrite), so per-transferId progress is
not monotone before any terminal status. -/
theorem progress_reset_counterexample :
    ((processEvents initialRecvState
        [(0, "p", .fileMeta { id := "t", name := "x", size := 100, type := "" }),
         (1, "p", .fileChunk "t" (List.replicate 50 0))]).chat.fileTransfers "t").map
      FileTransfer.progress = some 50
    ∧ ((processEvents initialRecvState
        [(0, "p", .fileMeta { id := "t", name := "x", size := 100, type := "" }),
         (1, "p", .fileChunk "t" (List.replicate 50 0))]).chat.fileTransfers "t").map
      FileTransfer.status = some .receiving
    ∧ ((processEvents initialRecvState
        [(0, "p", .fileMeta { id := "t", name := "x", size := 100, type := "" }),
         (1, "p", .fileChunk "t" (List.replicate 50 0)),
         (2, "p", .fileMeta { id := "t", name := "x", size := 100, type := "" })]).chat.fileTransfers
        "t").map FileTransfer.progress = some 0
    ∧ ((processEvents initialRecvState
        [(0, "p", .fileMeta { id := "t", name := "x", size := 100, type := "" }),
         (1, "p", .fileChunk "t" (List.replicate 50 0)),
         (2, "p", .fileMeta { id := "t", name := "x", size := 100, type := "" })]).chat.fileTransfers
        "t").map FileTransfer.status = some .receiving
    ∧ ¬ ((50 : ℚ) ≤ 0) := by
  refine ⟨?_, ?_, ?_, ?_, by norm_num⟩ <;>
    norm_num [processEvents, handleDataReceived, chatReducer, StrMap.set,
      initialRecvState, sumLen, peerNameOf]

/-- C5 amended: along any receiver trace from the empty start state the
coherence invariant `RecvInv` holds; under it, every received payload other
than a duplicate `file-meta` reusing the transferId (the restart shown in the
counterexample) keeps the stored progress of a live transfer non-decreasing
(a terminal `file-end` either preserves progress on failure or snaps
exactly-100 to 100 on completion); and the sender loop's dispatched progress
sequence is non-decreasing as well. -/
theorem progress_monotone :
    (∀ evs : List (Nat × String × PeerMessagePayload),
      RecvInv (processEvents initialRecvState evs))
    ∧ (∀ (s : RecvState) (now : Nat) (pid : String) (e : PeerMessagePayload)
        (id : String) (t : FileTransfer),
        RecvInv s → s.chat.fileTransfers id = some t →
        t.status.isTerminal = false →
        (∀ md, e = PeerMessagePayload.fileMeta md → md.id ≠ id) →
        ∃ t', (handleDataReceived now pid e s).chat.fileTransfers id = some t'
          ∧ t.progress ≤ t'.progress)
    ∧ (∀ bytes : List Nat, List.Chain' (· ≤ ·) (sendFileProgressValues bytes)) :=
  ⟨fun evs => RecvInv_processEvents evs initialRecvState RecvInv_initial,
   fun s now pid e id t hs ht hnt hmeta =>
     recv_step_progress_mono s now pid e id t hs ht hnt hmeta,
   sendProgress_chain⟩

/-- a transfer record coherent with `sampleBuf` (progress 4/4·100). -/
def monoTransfer : FileTransfer :=
  { sampleTransfer with progress :=
      (sumLen sampleBuf.chunks : ℚ) / (sampleBuf.metadata.size : ℚ) * 100 }

/-- a coherent receiver state: the open buffer `sampleBuf` with the live
transfer `monoTransfer`. -/
def monoRecv : RecvState :=
  { buffers := fun k => if k = "t1" then some sampleBuf else none
    chat := { sampleChat with
      fileTransfers := fun k => if k = "t1" then some monoTransfer else none }
    files := fun _ => none
    dbPeers := fun _ => none
    nextMsgId := 0 }

/-- witness for C5: a further chunk on the coherent concrete state keeps the
stored progress non-decreasing. -/
theorem progress_monotone_witness :
    ∃ t', (handleDataReceived 0 "p1" (.fileChunk "t1" [5]) monoRecv).chat.fileTransfers "t1" =
        some t'
      ∧ monoTransfer.progress ≤ t'.progress :=
  progress_monotone.2.1 monoRecv 0 "p1" (.fileChunk "t1" [5]) "t1" monoTransfer
    (by
      intro id buf t hb ht hnt
      by_cases hid : id = "t1"
      · subst hid
        rw [show monoRecv.buffers "t1" = some sampleBuf from rfl] at hb
        rw [show monoRecv.chat.fileTransfers "t1" = some monoTransfer from rfl] at ht
        rw [← Option.some_inj.mp hb, ← Option.some_inj.mp ht]
        rfl
      · rw [show monoRecv.buffers id = (if id = "t1" then some sampleBuf else none) from rfl,
          if_neg hid] at hb
        exact Option.noConfusion hb)
    rfl
    rfl
    (by intro md hmd; exact PeerMessagePayload.noConfusion hmd)

end Omegam
